import Mathlib

/-!
# Verification of the ergo configuration and hostname subsystem

Shallow embedding of the Go sources:
* `irc/net.go` — `IPString`, `LookupHostname`, `AddrLookupHostname`, `IsHostname`;
* the configuration loader — `Config`, `LoadConfig`, `Config.Operators`,
  `Config.TLSListeners`, `TLSListenConfig.Config`, `PassConfig.PasswordBytes`.

Modelling conventions:
* Go strings are modelled as Lean `String`s (sequences of Unicode scalar
  values); lengths count characters, which coincides with Go byte lengths on
  ASCII input.  `strings.ToLower` is modelled by the ASCII `Char.toLower`
  (Go performs Unicode simple case mapping, which agrees on ASCII).
* External collaborators (`net.SplitHostPort`, `net.LookupAddr`,
  `ioutil.ReadFile`, `yaml.Unmarshal`, `tls.LoadX509KeyPair`, `CasefoldName`,
  `DecodePassword`) are passed in as explicit parameters holding their result.
* `log.Fatal` (process termination) is modelled by returning `none`;
  a Go `(value, error)` pair is modelled by `Except` or by an explicit pair.
* Go maps are modelled as association lists; the loop over a Go map is
  modelled as a structural recursion over the list of entries, inserting by
  prepending (so that the most recent insertion wins on lookup).
-/

namespace Ergo

/-! ## Character-level model of the Go string primitives used by IsHostname -/

/-- The allowed characters of `irc/net.go`:
`var allowedHostnameChars = "abcdefghijklmnopqrstuvwxyz1234567890-."` -/
def allowedHostnameChars : List Char := "abcdefghijklmnopqrstuvwxyz1234567890-.".toList

/-- Model of Go `strings.Split(name, ".")` on character lists. -/
def splitOnDot : List Char → List (List Char)
  | [] => [[]]
  | c :: rest =>
    if c = '.' then [] :: splitOnDot rest
    else
      match splitOnDot rest with
      | [] => [[c]]
      | p :: ps => (c :: p) :: ps

/-- `irc/net.go` `IsHostname`, at the level of character lists.  The three
early-`return false` paths of the Go function become the three guards;
each `for`-loop with an early `return false` becomes a `List.any`. -/
def isHostnameChars (name : List Char) : Bool :=
  -- IRC hostnames specifically require a period
  if !(name.contains '.') || name.length < 1 || name.length > 253 then
    false
  -- ensure each part of hostname is valid
  else if (splitOnDot name).any (fun part =>
      part.length < 1 || part.length > 63 ||
      ['-'].isPrefixOf part || ['-'].isSuffixOf part) then
    false
  -- ensure all chars of hostname are valid
  else if (name.map Char.toLower).any
      (fun char => !(allowedHostnameChars.contains char)) then
    false
  else
    true

/-- `irc/net.go` `IsHostname`. -/
def IsHostname (name : String) : Bool := isHostnameChars name.toList

/-! ## `irc/net.go`: address resolution

`net.SplitHostPort` is modelled by its result: `none` for an error,
`some (host, port)` for success.  `net.LookupAddr` is modelled by its result
pair `(names, err)` with `err : Option String`.  A result of `none` from
`LookupHostname` models a runtime panic (`names[0]` on an empty slice). -/

/-- `irc/net.go` `IPString`.  `splitHostPort` is the result of
`net.SplitHostPort(addr.String())`. -/
def IPString (addrStr : String) (splitHostPort : Option (String × String)) : String :=
  match splitHostPort with
  | none => addrStr
  | some (ipaddr, _) => ipaddr

/-- `irc/net.go` `LookupHostname`.  `lookupAddr` is the result of
`net.LookupAddr(addr)`.  When the error is nil the Go code evaluates
`names[0]` unconditionally; on an empty slice this panics, modelled by
`none`. -/
def LookupHostname (addr : String) (lookupAddr : List String × Option String) :
    Option String :=
  match lookupAddr with
  | (_, some _) => some addr
  | (names, none) =>
    match names with
    | [] => none
    | n :: _ => if !(IsHostname n) then some addr else some n

/-- `irc/net.go` `AddrLookupHostname`: `LookupHostname(IPString(addr))`. -/
def AddrLookupHostname (addrStr : String) (splitHostPort : Option (String × String))
    (lookupAddr : List String × Option String) : Option String :=
  LookupHostname (IPString addrStr splitHostPort) lookupAddr

/-! ## The configuration aggregate

Direct transcription of the `Config` struct and its nested structs. -/

/-- `PassConfig`. -/
structure PassConfig where
  password : String
deriving DecidableEq, Repr

/-- `TLSListenConfig`: configuration options for listening on TLS. -/
structure TLSListenConfig where
  cert : String
  key : String
deriving DecidableEq, Repr

/-- The anonymous `TLS` struct inside the mailto callback config. -/
structure MailtoTLSConfig where
  enabled : Bool
  insecureSkipVerify : Bool
  serverName : String
deriving DecidableEq, Repr

/-- The anonymous `Mailto` struct inside `AccountRegistrationConfig.Callbacks`. -/
structure MailtoConfig where
  server : String
  port : Int
  tls : MailtoTLSConfig
  username : String
  password : String
  sender : String
  verifyMessageSubject : String
  verifyMessage : String
deriving DecidableEq, Repr

/-- `AccountRegistrationConfig`. -/
structure AccountRegistrationConfig where
  enabled : Bool
  enabledCallbacks : List String
  callbacksMailto : MailtoConfig
deriving DecidableEq, Repr

/-- The anonymous `Network` struct of `Config`. -/
structure NetworkConfig where
  name : String
deriving DecidableEq, Repr

/-- The anonymous `Server` struct of `Config`.  The embedded `PassConfig`
becomes the field `passConfig`; the Go map `TLSListeners` becomes an
association list. -/
structure ServerConfig where
  passConfig : PassConfig
  password : String
  name : String
  listen : List String
  wslisten : String
  tlsListeners : List (String × TLSListenConfig)
  checkIdent : Bool
  log : String
  motd : String
  proxyAllowedFrom : List String
deriving DecidableEq, Repr

/-- The anonymous `Datastore` struct of `Config`. -/
structure DatastoreConfig where
  path : String
deriving DecidableEq, Repr

/-- The anonymous `Registration` struct of `Config`. -/
structure RegistrationConfig where
  accounts : AccountRegistrationConfig
deriving DecidableEq, Repr

/-- The anonymous `Limits` struct of `Config`.  Go `int` is modelled by `Int`
(no arithmetic is performed, only comparisons), Go `uint` by `Nat`. -/
structure LimitsConfig where
  nickLen : Int
  channelLen : Int
  awayLen : Int
  kickLen : Int
  topicLen : Int
  whowasEntries : Nat
deriving DecidableEq, Repr

/-- `Config`: the root aggregate.  The Go map `Operator` becomes an
association list. -/
structure Config where
  network : NetworkConfig
  server : ServerConfig
  datastore : DatastoreConfig
  registration : RegistrationConfig
  operator : List (String × PassConfig)
  limits : LimitsConfig
deriving DecidableEq, Repr

/-! ## Derived runtime structures -/

/-- `PassConfig.PasswordBytes`.  `decodePassword` is the external
`DecodePassword`; a decode error hits `log.Fatal`, modelled by `none`. -/
def PassConfig.PasswordBytes {β : Type} (decodePassword : String → Except String β)
    (conf : PassConfig) : Option β :=
  match decodePassword conf.password with
  | .error _ => none
  | .ok bytes => some bytes

/-- The `Certificates` field of the produced `tls.Config`. -/
structure TLSContext (Cert : Type) where
  certificates : List Cert
deriving DecidableEq, Repr

/-- `TLSListenConfig.Config`.  `loadX509KeyPair` is the external
`tls.LoadX509KeyPair`; on its error the Go method returns
`(nil, errors.New("tls cert+key: invalid pair"))`, on success it returns a
`tls.Config` holding exactly the loaded certificate (and the nil error). -/
def TLSListenConfig.Config {Cert : Type}
    (loadX509KeyPair : String → String → Except String Cert)
    (conf : TLSListenConfig) : Except String (TLSContext Cert) :=
  match loadX509KeyPair conf.cert conf.key with
  | .error _ => .error "tls cert+key: invalid pair"
  | .ok cert => .ok { certificates := [cert] }

/-- The loop body of `Config.Operators`, recursing over the entries of the
`Operator` map.  For each entry the name is casefolded first; on success the
secret is decoded (`PasswordBytes`, whose failure is `log.Fatal`, modelled by
`none` for the whole call) and inserted; on casefold failure the entry is
logged and skipped. -/
def operatorsLoop {β : Type} (casefoldName : String → Except String String)
    (decodePassword : String → Except String β) (acc : List (String × β)) :
    List (String × PassConfig) → Option (List (String × β))
  | [] => some acc
  | (name, opConf) :: rest =>
    match casefoldName name with
    | .ok cname =>
      match PassConfig.PasswordBytes decodePassword opConf with
      | none => none
      | some bytes => operatorsLoop casefoldName decodePassword ((cname, bytes) :: acc) rest
    | .error _ => operatorsLoop casefoldName decodePassword acc rest

/-- `Config.Operators`. -/
def Config.Operators {β : Type} (casefoldName : String → Except String String)
    (decodePassword : String → Except String β) (conf : Config) :
    Option (List (String × β)) :=
  operatorsLoop casefoldName decodePassword [] conf.operator

/-- The loop body of `Config.TLSListeners`.  For each entry the Go code first
calls `tlsListenersConf.Config()` and `log.Fatal`s on its error (modelled by
`none` for the whole call); only then is the name casefolded, a failure being
logged and the insertion skipped. -/
def tlsListenersLoop {Cert : Type} (casefoldName : String → Except String String)
    (loadX509KeyPair : String → String → Except String Cert)
    (acc : List (String × TLSContext Cert)) :
    List (String × TLSListenConfig) → Option (List (String × TLSContext Cert))
  | [] => some acc
  | (s, tlsListenersConf) :: rest =>
    match TLSListenConfig.Config loadX509KeyPair tlsListenersConf with
    | .error _ => none
    | .ok config =>
      match casefoldName s with
      | .ok name => tlsListenersLoop casefoldName loadX509KeyPair ((name, config) :: acc) rest
      | .error _ => tlsListenersLoop casefoldName loadX509KeyPair acc rest

/-- `Config.TLSListeners`. -/
def Config.TLSListeners {Cert : Type} (casefoldName : String → Except String String)
    (loadX509KeyPair : String → String → Except String Cert) (conf : Config) :
    Option (List (String × TLSContext Cert)) :=
  tlsListenersLoop casefoldName loadX509KeyPair [] conf.server.tlsListeners

/-! ## `LoadConfig` -/

/-- The normalization step of `LoadConfig`:
`if config.Server.Password != "" { config.Server.PassConfig.Password = config.Server.Password }`. -/
def normalizePassword (config : Config) : Config :=
  if config.server.password ≠ "" then
    { config with server := { config.server with
        passConfig := { config.server.passConfig with password := config.server.password } } }
  else
    config

/-- The limits condition of `LoadConfig`, transcribed verbatim (including the
duplicated `TopicLen < 1` disjunct of the Go source). -/
def limitsCheckFails (limits : LimitsConfig) : Bool :=
  limits.nickLen < 1 || limits.channelLen < 2 || limits.awayLen < 1 ||
    limits.topicLen < 1 || limits.topicLen < 1

/-- `LoadConfig`.  `readFile` holds the result of `ioutil.ReadFile(filename)`
and `unmarshal` models `yaml.Unmarshal`.  The Go return value
`(config *Config, err error)` is modelled by the pair
`(Option Config × Option String)`. -/
def LoadConfig (readFile : Except String String)
    (unmarshal : String → Except String Config) : Option Config × Option String :=
  match readFile with
  | .error err => (none, some err)
  | .ok data =>
  match unmarshal data with
  | .error err => (none, some err)
  | .ok parsed =>
  -- we need this so PasswordBytes returns the correct info
  let config := normalizePassword parsed
  if config.network.name = "" then
    (none, some "Network name missing")
  else if config.server.name = "" then
    (none, some "Server name missing")
  else if !(IsHostname config.server.name) then
    (none, some "Server name must match the format of a hostname")
  else if config.datastore.path = "" then
    (none, some "Datastore path missing")
  else if config.server.listen.length = 0 then
    (none, some "Server listening addresses missing")
  else if limitsCheckFails config.limits then
    (none, some "Limits aren\x27t setup properly, check them and make them sane")
  else
    (some config, none)

/-! ## Spec-side definitions

These follow the wording of the specification, to be compared with the
definitions transcribed from the source. -/

/-- The hostname rules as the spec words them: overall length in `[1,253]`;
contains at least one `"."`; every `"."`-delimited label has length in
`[1,63]` and neither starts nor ends with `"-"`; every character,
case-insensitively, is in the set `[a-z0-9.-]`. -/
def HostnameSpecRules (name : String) : Prop :=
  1 ≤ name.length ∧ name.length ≤ 253 ∧
  '.' ∈ name.toList ∧
  (∀ part ∈ splitOnDot name.toList,
      1 ≤ part.length ∧ part.length ≤ 63 ∧
      part.head? ≠ some '-' ∧ part.getLast? ≠ some '-') ∧
  (∀ c ∈ name.toList, Char.toLower c ∈ allowedHostnameChars)

/-- The ASCII-lowercased form of a string. -/
def asciiLowered (s : String) : String := String.mk (s.toList.map Char.toLower)

/-- The six load-time invariant checks in the fixed order of the spec
(network name → server name → hostname format → datastore path → listen
addresses → limits), each paired with its diagnostic message. -/
def orderedChecks : List ((Config → Bool) × String) :=
  [ (fun c => c.network.name = "", "Network name missing"),
    (fun c => c.server.name = "", "Server name missing"),
    (fun c => !(IsHostname c.server.name), "Server name must match the format of a hostname"),
    (fun c => c.datastore.path = "", "Datastore path missing"),
    (fun c => c.server.listen.length = 0, "Server listening addresses missing"),
    (fun c => limitsCheckFails c.limits,
      "Limits aren\x27t setup properly, check them and make them sane") ]

/-- The earliest violated invariant in the fixed order, if any. -/
def firstViolation (c : Config) : Option String :=
  (orderedChecks.find? (fun check => check.1 c)).map (fun check => check.2)

/-! ## Concrete configuration values used to exercise the definitions -/

/-- An account-registration block with every field zeroed. -/
def emptyAccounts : AccountRegistrationConfig :=
  ⟨false, [], ⟨"", 0, ⟨false, false, ""⟩, "", "", "", "", ""⟩⟩

/-- A configuration document with every field zeroed. -/
def cfgEmpty : Config :=
  ⟨⟨""⟩, ⟨⟨""⟩, "", "", [], "", [], false, "", "", []⟩, ⟨""⟩,
    ⟨emptyAccounts⟩, [], ⟨0, 0, 0, 0, 0, 0⟩⟩

/-- A configuration document that satisfies every load-time invariant. -/
def cfgGood : Config :=
  ⟨⟨"ExampleNet"⟩,
    ⟨⟨""⟩, "secret", "irc.example.com", ["127.0.0.1:6667"], "", [], false, "", "", []⟩,
    ⟨"ircd.db"⟩, ⟨emptyAccounts⟩, [], ⟨9, 64, 200, 390, 390, 100⟩⟩

/-- `cfgGood` after the load-time password normalization: the flat
`server.password` copied into the nested `passConfig`. -/
def cfgGoodNorm : Config :=
  ⟨⟨"ExampleNet"⟩,
    ⟨⟨"secret"⟩, "secret", "irc.example.com", ["127.0.0.1:6667"], "", [], false, "", "", []⟩,
    ⟨"ircd.db"⟩, ⟨emptyAccounts⟩, [], ⟨9, 64, 200, 390, 390, 100⟩⟩

/-- A canonicalizer that always fails. -/
def cfErr : String → Except String String := fun _ => .error "could not casefold"

/-- A canonicalizer that accepts every name unchanged. -/
def cfId : String → Except String String := fun s => .ok s

/-- A password decoder that always succeeds. -/
def dpNat : String → Except String Nat := fun s => .ok s.length

/-- A certificate loader that always succeeds with the path pair. -/
def loadPairOk : String → String → Except String (String × String) := fun c k => .ok (c, k)

/-- A certificate loader that always fails. -/
def loadFail : String → String → Except String (String × String) :=
  fun _ _ => .error "open: no such file"

/-! ## Character lemmas -/

theorem charEq_iff_toNat {a b : Char} : a = b ↔ a.toNat = b.toNat := by
  rw [Char.ext_iff, UInt32.ext_iff]; rfl

theorem toNat_ofNat_valid (n : Nat) (h : n.isValidChar) : (Char.ofNat n).toNat = n := by
  simp [Char.ofNat, h, Char.ofNatAux, Char.toNat]
  rfl

theorem toLower_of_upper (c : Char) (h1 : 65 ≤ c.toNat) (h2 : c.toNat ≤ 90) :
    (Char.toLower c).toNat = c.toNat + 32 := by
  have hv : (c.toNat + 32).isValidChar := by left; omega
  simp [Char.toLower, h1, h2, toNat_ofNat_valid _ hv]

theorem toLower_of_not_upper (c : Char) (h : ¬(65 ≤ c.toNat ∧ c.toNat ≤ 90)) :
    Char.toLower c = c := by
  simp only [Char.toLower]
  rw [if_neg]
  omega

theorem toLower_eq_iff_of_low (c d : Char) (hd : d.toNat < 65) :
    (Char.toLower c = d) ↔ c = d := by
  by_cases h : 65 ≤ c.toNat ∧ c.toNat ≤ 90
  · rw [charEq_iff_toNat, toLower_of_upper c h.1 h.2, charEq_iff_toNat]
    omega
  · rw [toLower_of_not_upper c h]

theorem toLower_idem (c : Char) : Char.toLower (Char.toLower c) = Char.toLower c := by
  by_cases h : 65 ≤ c.toNat ∧ c.toNat ≤ 90
  · apply toLower_of_not_upper
    rw [toLower_of_upper c h.1 h.2]
    omega
  · rw [toLower_of_not_upper c h]
    exact toLower_of_not_upper c h

/-! ## Lemmas about the hostname validator -/

theorem dash_prefixP_iff (p : List Char) : (['-'] <+: p) ↔ p.head? = some '-' := by
  cases p with
  | nil => simp
  | cons c cs => simp [List.cons_prefix_cons, eq_comm]

theorem dash_suffixP_iff (p : List Char) : (['-'] <:+ p) ↔ p.getLast? = some '-' := by
  rw [← List.reverse_prefix, show (['-'] : List Char).reverse = ['-'] from rfl,
    dash_prefixP_iff, List.head?_reverse]

theorem splitOnDot_ne_nil (l : List Char) : splitOnDot l ≠ [] := by
  cases l with
  | nil => simp [splitOnDot]
  | cons c rest =>
    simp only [splitOnDot]
    split
    · simp
    · cases h : splitOnDot rest <;> simp [h]

theorem guard1_iff (l : List Char) :
    ((!(l.contains '.') || l.length < 1 || l.length > 253) = false) ↔
      ('.' ∈ l ∧ 1 ≤ l.length ∧ l.length ≤ 253) := by
  simp [Nat.not_lt]
  constructor
  · rintro ⟨⟨hm, hne⟩, h253⟩
    exact ⟨hm, List.length_pos.mpr hne, h253⟩
  · rintro ⟨hm, hlen, h253⟩
    refine ⟨⟨hm, ?_⟩, h253⟩
    intro hnil
    subst hnil
    simp at hm

theorem guard2_iff (l : List Char) :
    (((splitOnDot l).any (fun part =>
        part.length < 1 || part.length > 63 ||
        ['-'].isPrefixOf part || ['-'].isSuffixOf part)) = false) ↔
      (∀ part ∈ splitOnDot l, 1 ≤ part.length ∧ part.length ≤ 63 ∧
        part.head? ≠ some '-' ∧ part.getLast? ≠ some '-') := by
  rw [List.any_eq_false]
  apply forall_congr'
  intro part
  apply imp_congr_right
  intro _
  simp [Nat.not_lt, dash_prefixP_iff, dash_suffixP_iff, Nat.one_le_iff_ne_zero,
    List.length_eq_zero]
  tauto

theorem guard3_iff (l : List Char) :
    (((l.map Char.toLower).any
        (fun char => !(allowedHostnameChars.contains char))) = false) ↔
      (∀ c ∈ l, Char.toLower c ∈ allowedHostnameChars) := by
  rw [List.any_map, List.any_eq_false]
  apply forall_congr'
  intro c
  apply imp_congr_right
  intro _
  simp [Function.comp]

theorem isHostnameChars_eq_true_iff (l : List Char) :
    isHostnameChars l = true ↔
      (1 ≤ l.length ∧ l.length ≤ 253 ∧ '.' ∈ l ∧
       (∀ part ∈ splitOnDot l, 1 ≤ part.length ∧ part.length ≤ 63 ∧
          part.head? ≠ some '-' ∧ part.getLast? ≠ some '-') ∧
       (∀ c ∈ l, Char.toLower c ∈ allowedHostnameChars)) := by
  unfold isHostnameChars
  split_ifs with h1 h2 h3
  · simp only [Bool.false_eq_true, false_iff]
    rintro ⟨hl1, hl2, hmem, _, _⟩
    rw [(guard1_iff l).mpr ⟨hmem, hl1, hl2⟩] at h1
    exact Bool.false_ne_true h1
  · simp only [Bool.false_eq_true, false_iff]
    rintro ⟨_, _, _, hparts, _⟩
    rw [(guard2_iff l).mpr hparts] at h2
    exact Bool.false_ne_true h2
  · simp only [Bool.false_eq_true, false_iff]
    rintro ⟨_, _, _, _, hchars⟩
    rw [(guard3_iff l).mpr hchars] at h3
    exact Bool.false_ne_true h3
  · simp only [true_iff]
    obtain ⟨hmem, hl1, hl2⟩ := (guard1_iff l).mp (Bool.eq_false_iff.mpr h1)
    exact ⟨hl1, hl2, hmem, (guard2_iff l).mp (Bool.eq_false_iff.mpr h2),
      (guard3_iff l).mp (Bool.eq_false_iff.mpr h3)⟩

/-! ## Lowercasing invariance of the hostname validator -/

theorem exists_dot_toLower_iff (l : List Char) :
    (∃ a ∈ l, Char.toLower a = '.') ↔ '.' ∈ l := by
  constructor
  · rintro ⟨a, ha, he⟩
    rw [toLower_eq_iff_of_low a '.' (by decide)] at he
    exact he ▸ ha
  · intro h
    exact ⟨'.', h, by decide⟩

theorem contains_dot_map_toLower (l : List Char) :
    (l.map Char.toLower).contains '.' = l.contains '.' := by
  rw [Bool.eq_iff_iff]
  simp [exists_dot_toLower_iff]

theorem splitOnDot_map_toLower (l : List Char) :
    splitOnDot (l.map Char.toLower) = (splitOnDot l).map (List.map Char.toLower) := by
  induction l with
  | nil => rfl
  | cons c rest ih =>
    by_cases hc : c = '.'
    · subst hc
      simp only [List.map_cons, splitOnDot]
      rw [if_pos (by decide : Char.toLower '.' = '.'), ih]
      simp
    · have hc' : Char.toLower c ≠ '.' :=
        fun h => hc ((toLower_eq_iff_of_low c '.' (by decide)).mp h)
      simp only [List.map_cons, splitOnDot]
      rw [if_neg hc', if_neg hc, ih]
      obtain ⟨p, ps, hps⟩ : ∃ p ps, splitOnDot rest = p :: ps := by
        cases h : splitOnDot rest with
        | nil => exact absurd h (splitOnDot_ne_nil rest)
        | cons p ps => exact ⟨p, ps, rfl⟩
      rw [hps]
      simp

theorem dash_isPrefixOf_map_toLower (p : List Char) :
    (['-'].isPrefixOf (p.map Char.toLower)) = (['-'].isPrefixOf p) := by
  rw [Bool.eq_iff_iff, List.isPrefixOf_iff_prefix, List.isPrefixOf_iff_prefix,
    dash_prefixP_iff, dash_prefixP_iff, List.head?_map]
  cases hp : p.head? with
  | none => simp
  | some a =>
    simp only [Option.map_some', Option.some_inj]
    exact toLower_eq_iff_of_low a '-' (by decide)

theorem dash_isSuffixOf_map_toLower (p : List Char) :
    (['-'].isSuffixOf (p.map Char.toLower)) = (['-'].isSuffixOf p) := by
  rw [Bool.eq_iff_iff, List.isSuffixOf_iff_suffix, List.isSuffixOf_iff_suffix,
    dash_suffixP_iff, dash_suffixP_iff, List.getLast?_map]
  cases hp : p.getLast? with
  | none => simp
  | some a =>
    simp only [Option.map_some', Option.some_inj]
    exact toLower_eq_iff_of_low a '-' (by decide)

theorem part_guard_map_toLower (p : List Char) :
    ((p.map Char.toLower).length < 1 || (p.map Char.toLower).length > 63 ||
     ['-'].isPrefixOf (p.map Char.toLower) || ['-'].isSuffixOf (p.map Char.toLower)) =
    (p.length < 1 || p.length > 63 || ['-'].isPrefixOf p || ['-'].isSuffixOf p) := by
  rw [List.length_map, dash_isPrefixOf_map_toLower, dash_isSuffixOf_map_toLower]

theorem isHostnameChars_map_toLower (l : List Char) :
    isHostnameChars (l.map Char.toLower) = isHostnameChars l := by
  unfold isHostnameChars
  rw [contains_dot_map_toLower, List.length_map, splitOnDot_map_toLower]
  rw [List.any_map]
  have hbad : ((fun part => part.length < 1 || part.length > 63 ||
      ['-'].isPrefixOf part || ['-'].isSuffixOf part) ∘ List.map Char.toLower) =
      (fun part : List Char => part.length < 1 || part.length > 63 ||
      ['-'].isPrefixOf part || ['-'].isSuffixOf part) := by
    funext part
    simp only [Function.comp_apply]
    exact part_guard_map_toLower part
  rw [hbad]
  rw [List.map_map,
    show Char.toLower ∘ Char.toLower = Char.toLower from funext toLower_idem]

/-! ## Lemmas about the resolver loops -/

theorem operatorsLoop_keys {β : Type} (cf : String → Except String String)
    (dp : String → Except String β) :
    ∀ (entries : List (String × PassConfig)) (acc m : List (String × β)),
      operatorsLoop cf dp acc entries = some m →
      ∀ kv ∈ m, kv ∈ acc ∨ ∃ e ∈ entries, cf e.1 = .ok kv.1 := by
  intro entries
  induction entries with
  | nil =>
    intro acc m h kv hkv
    simp only [operatorsLoop, Option.some_inj] at h
    exact Or.inl (h ▸ hkv)
  | cons hd rest ih =>
    obtain ⟨n, pc⟩ := hd
    intro acc m h kv hkv
    simp only [operatorsLoop] at h
    cases hc : cf n with
    | ok cname =>
      rw [hc] at h
      cases hpb : PassConfig.PasswordBytes dp pc with
      | none => rw [hpb] at h; exact absurd h (by simp)
      | some bytes =>
        rw [hpb] at h
        rcases ih _ _ h kv hkv with hacc | ⟨e, he, hee⟩
        · rcases List.mem_cons.mp hacc with hkv1 | hkv2
          · refine Or.inr ⟨(n, pc), List.mem_cons_self _ _, ?_⟩
            rw [hkv1, hc]
          · exact Or.inl hkv2
        · exact Or.inr ⟨e, List.mem_cons_of_mem _ he, hee⟩
    | error err =>
      rw [hc] at h
      rcases ih _ _ h kv hkv with hacc | ⟨e, he, hee⟩
      · exact Or.inl hacc
      · exact Or.inr ⟨e, List.mem_cons_of_mem _ he, hee⟩

theorem tlsListenersLoop_keys {Cert : Type} (cf : String → Except String String)
    (load : String → String → Except String Cert) :
    ∀ (entries : List (String × TLSListenConfig))
      (acc m : List (String × TLSContext Cert)),
      tlsListenersLoop cf load acc entries = some m →
      ∀ kv ∈ m, kv ∈ acc ∨ ∃ e ∈ entries, cf e.1 = .ok kv.1 := by
  intro entries
  induction entries with
  | nil =>
    intro acc m h kv hkv
    simp only [tlsListenersLoop, Option.some_inj] at h
    exact Or.inl (h ▸ hkv)
  | cons hd rest ih =>
    obtain ⟨s, tc⟩ := hd
    intro acc m h kv hkv
    simp only [tlsListenersLoop] at h
    cases hld : TLSListenConfig.Config load tc with
    | error err => rw [hld] at h; exact absurd h (by simp)
    | ok config =>
      rw [hld] at h
      cases hc : cf s with
      | ok name =>
        rw [hc] at h
        rcases ih _ _ h kv hkv with hacc | ⟨e, he, hee⟩
        · rcases List.mem_cons.mp hacc with hkv1 | hkv2
          · refine Or.inr ⟨(s, tc), List.mem_cons_self _ _, ?_⟩
            rw [hkv1, hc]
          · exact Or.inl hkv2
        · exact Or.inr ⟨e, List.mem_cons_of_mem _ he, hee⟩
      | error err =>
        rw [hc] at h
        rcases ih _ _ h kv hkv with hacc | ⟨e, he, hee⟩
        · exact Or.inl hacc
        · exact Or.inr ⟨e, List.mem_cons_of_mem _ he, hee⟩

theorem operatorsLoop_skip {β : Type} (cf : String → Except String String)
    (dp : String → Except String β) (name : String) (pconf : PassConfig)
    (err : String) (hc : cf name = .error err) :
    ∀ (pre post : List (String × PassConfig)) (acc : List (String × β)),
      operatorsLoop cf dp acc (pre ++ (name, pconf) :: post) =
        operatorsLoop cf dp acc (pre ++ post) := by
  intro pre
  induction pre with
  | nil =>
    intro post acc
    simp only [List.nil_append, operatorsLoop, hc]
  | cons hd rest ih =>
    obtain ⟨qn, qp⟩ := hd
    intro post acc
    simp only [List.cons_append, operatorsLoop]
    cases hq : cf qn with
    | ok cname =>
      cases hpb : PassConfig.PasswordBytes dp qp with
      | none => simp [hpb]
      | some bytes => simp only [hpb]; exact ih post _
    | error e2 => exact ih post acc

theorem tlsListenersLoop_skip {Cert : Type} (cf : String → Except String String)
    (load : String → String → Except String Cert) (s : String)
    (tc : TLSListenConfig) (ctx : TLSContext Cert) (err : String)
    (hc : cf s = .error err) (hld : TLSListenConfig.Config load tc = .ok ctx) :
    ∀ (pre post : List (String × TLSListenConfig))
      (acc : List (String × TLSContext Cert)),
      tlsListenersLoop cf load acc (pre ++ (s, tc) :: post) =
        tlsListenersLoop cf load acc (pre ++ post) := by
  intro pre
  induction pre with
  | nil =>
    intro post acc
    simp only [List.nil_append, tlsListenersLoop, hld, hc]
  | cons hd rest ih =>
    obtain ⟨qn, qc⟩ := hd
    intro post acc
    simp only [List.cons_append, tlsListenersLoop]
    cases hq : TLSListenConfig.Config load qc with
    | error e2 => simp [hq]
    | ok config =>
      simp only [hq]
      cases hcq : cf qn with
      | ok nm => exact ih post _
      | error e2 => exact ih post acc

theorem tlsListenersLoop_certs {Cert : Type} (cf : String → Except String String)
    (load : String → String → Except String Cert) :
    ∀ (entries : List (String × TLSListenConfig))
      (acc m : List (String × TLSContext Cert)),
      (∀ kv ∈ acc, kv.2.certificates.length = 1) →
      tlsListenersLoop cf load acc entries = some m →
      ∀ kv ∈ m, kv.2.certificates.length = 1 := by
  intro entries
  induction entries with
  | nil =>
    intro acc m hacc h kv hkv
    simp only [tlsListenersLoop, Option.some_inj] at h
    exact hacc kv (h ▸ hkv)
  | cons hd rest ih =>
    obtain ⟨s, tc⟩ := hd
    intro acc m hacc h kv hkv
    simp only [tlsListenersLoop] at h
    cases hld : TLSListenConfig.Config load tc with
    | error e2 => rw [hld] at h; exact absurd h (by simp)
    | ok config =>
      rw [hld] at h
      have hcfg : config.certificates.length = 1 := by
        unfold TLSListenConfig.Config at hld
        cases hpair : load tc.cert tc.key with
        | error e3 => rw [hpair] at hld; exact absurd hld (by simp)
        | ok cert =>
          rw [hpair] at hld
          simp only [Except.ok.injEq] at hld
          rw [← hld]
          rfl
      cases hc : cf s with
      | ok name =>
        rw [hc] at h
        refine ih _ _ ?_ h kv hkv
        intro kv2 hkv2
        rcases List.mem_cons.mp hkv2 with h1 | h2
        · rw [h1]; exact hcfg
        · exact hacc kv2 h2
      | error e2 =>
        rw [hc] at h
        exact ih _ _ hacc h kv hkv

/-! ## Evaluation of `LoadConfig` after a successful read and parse -/

theorem loadConfig_ok_eval (data : String) (unmarshal : String → Except String Config)
    (parsed : Config) (h : unmarshal data = .ok parsed) :
    LoadConfig (.ok data) unmarshal =
      (if (normalizePassword parsed).network.name = "" then
        ((none : Option Config), some "Network name missing")
      else if (normalizePassword parsed).server.name = "" then
        (none, some "Server name missing")
      else if !(IsHostname (normalizePassword parsed).server.name) then
        (none, some "Server name must match the format of a hostname")
      else if (normalizePassword parsed).datastore.path = "" then
        (none, some "Datastore path missing")
      else if (normalizePassword parsed).server.listen.length = 0 then
        (none, some "Server listening addresses missing")
      else if limitsCheckFails (normalizePassword parsed).limits then
        (none, some "Limits aren\x27t setup properly, check them and make them sane")
      else (some (normalizePassword parsed), none)) := by
  simp only [LoadConfig, h]

/-! ## The claims -/

/-- Claim C1, counterexample.  The claim states that when the reverse-DNS
lookup returns no candidates the original IP string is returned; but with an
empty candidate list and a nil error the code evaluates `names[0]`, which
panics (modelled by `none`) instead of returning `some "1.2.3.4"`. -/
theorem claim1_counterexample :
    LookupHostname "1.2.3.4" ([], none) = none ∧
    LookupHostname "1.2.3.4" ([], none) ≠ some "1.2.3.4" :=
  ⟨rfl, by decide⟩

/-- Claim C1 as amended: address resolution returns the original address
string unchanged when stripping the trailing port fails, returns the original
IP string when the lookup errors or when the first candidate fails
`IsHostname`, returns the resolved hostname when the first candidate passes
`IsHostname`, panics (modelled by `none`) when the lookup succeeds with an
empty candidate list, and never consults any candidate after the first. -/
theorem claim1_address_resolution :
    (∀ (addrStr : String) (lookupRes : List String × Option String),
       AddrLookupHostname addrStr none lookupRes = LookupHostname addrStr lookupRes) ∧
    (∀ (addrStr host port : String) (lookupRes : List String × Option String),
       AddrLookupHostname addrStr (some (host, port)) lookupRes =
         LookupHostname host lookupRes) ∧
    (∀ addrStr : String, IPString addrStr none = addrStr) ∧
    (∀ (ip e : String) (names : List String),
       LookupHostname ip (names, some e) = some ip) ∧
    (∀ (ip n : String) (rest : List String), IsHostname n = false →
       LookupHostname ip (n :: rest, none) = some ip) ∧
    (∀ (ip n : String) (rest : List String), IsHostname n = true →
       LookupHostname ip (n :: rest, none) = some n) ∧
    (∀ ip : String, LookupHostname ip ([], none) = none) ∧
    (∀ (ip n : String) (rest rest' : List String),
       LookupHostname ip (n :: rest, none) = LookupHostname ip (n :: rest', none)) := by
  refine ⟨fun _ _ => rfl, fun _ _ _ _ => rfl, fun _ => rfl, fun _ _ _ => rfl,
    ?_, ?_, fun _ => rfl, fun _ _ _ _ => rfl⟩
  · intro ip n rest h
    simp [LookupHostname, h]
  · intro ip n rest h
    simp [LookupHostname, h]

/-- Witness for the amended claim C1, at concrete inputs. -/
theorem claim1_witness :
    LookupHostname "1.2.3.4" (["nodothost"], none) = some "1.2.3.4" ∧
    LookupHostname "1.2.3.4" (["host.example.com"], none) = some "host.example.com" :=
  ⟨claim1_address_resolution.2.2.2.2.1 "1.2.3.4" "nodothost" [] (by decide),
   claim1_address_resolution.2.2.2.2.2.1 "1.2.3.4" "host.example.com" [] (by decide)⟩

/-- Claim C3: `IsHostname name` returns true iff the overall length is in
`[1,253]`, the string contains a `"."`, every `"."`-delimited label has
length in `[1,63]` and neither starts nor ends with `"-"`, and every
character is, case-insensitively, in `[a-z0-9.-]`; in particular it returns
false for every string containing no `"."`. -/
theorem claim3_hostname_rules :
    ∀ name : String, (IsHostname name = true ↔ HostnameSpecRules name) ∧
      ('.' ∉ name.toList → IsHostname name = false) := by
  intro name
  constructor
  · rw [show IsHostname name = isHostnameChars name.toList from rfl,
      isHostnameChars_eq_true_iff]
    exact Iff.rfl
  · intro hdot
    cases hih : IsHostname name with
    | false => rfl
    | true =>
      have h2 := (isHostnameChars_eq_true_iff name.toList).mp hih
      exact absurd h2.2.2.1 hdot

/-- Witness for claim C3, at concrete inputs. -/
theorem claim3_witness :
    (IsHostname "irc.example.com" = true ↔ HostnameSpecRules "irc.example.com") ∧
    IsHostname "nodothost" = false :=
  ⟨(claim3_hostname_rules "irc.example.com").1,
   (claim3_hostname_rules "nodothost").2 (by decide)⟩

/-- Claim C9: hostname validity is insensitive to the letter case of the
input — `IsHostname` agrees on a string and its ASCII-lowercased form. -/
theorem claim9_case_insensitive :
    ∀ name : String, IsHostname name = IsHostname (asciiLowered name) := by
  intro name
  rw [show IsHostname (asciiLowered name) =
      isHostnameChars (name.toList.map Char.toLower) from rfl]
  exact (isHostnameChars_map_toLower name.toList).symm

/-- Claim C10: `TLSListenConfig.Config` either fails with the error
`"tls cert+key: invalid pair"`, or succeeds with a TLS context holding
exactly the one certificate loaded from the entry's cert and key paths;
consequently every value of the `TLSListeners()` map holds exactly one
certificate. -/
theorem claim10_tls_config_shape :
    ∀ (Cert : Type) (load : String → String → Except String Cert)
      (conf : TLSListenConfig),
      (∀ e : String, load conf.cert conf.key = .error e →
        TLSListenConfig.Config load conf = .error "tls cert+key: invalid pair") ∧
      (∀ cert : Cert, load conf.cert conf.key = .ok cert →
        TLSListenConfig.Config load conf = .ok ⟨[cert]⟩) ∧
      (∀ result : TLSContext Cert, TLSListenConfig.Config load conf = .ok result →
        result.certificates.length = 1) ∧
      (∀ (cf : String → Except String String) (c : Config)
         (m : List (String × TLSContext Cert)),
        Config.TLSListeners cf load c = some m →
        ∀ kv ∈ m, kv.2.certificates.length = 1) := by
  intro Cert load conf
  refine ⟨?_, ?_, ?_, ?_⟩
  · intro e h
    unfold TLSListenConfig.Config
    rw [h]
  · intro cert h
    unfold TLSListenConfig.Config
    rw [h]
  · intro result h
    unfold TLSListenConfig.Config at h
    cases hp : load conf.cert conf.key with
    | error e => rw [hp] at h; exact absurd h (by simp)
    | ok cert =>
      rw [hp] at h
      simp only [Except.ok.injEq] at h
      rw [← h]
      rfl
  · intro cf c m h kv hkv
    exact tlsListenersLoop_certs cf load c.server.tlsListeners [] m (by simp) h kv hkv

/-- Witness for claim C10, at concrete inputs. -/
theorem claim10_witness :
    TLSListenConfig.Config loadPairOk ⟨"a.pem", "a.key"⟩ =
      .ok ⟨[("a.pem", "a.key")]⟩ ∧
    TLSListenConfig.Config loadFail ⟨"a.pem", "a.key"⟩ =
      .error "tls cert+key: invalid pair" :=
  ⟨(claim10_tls_config_shape (String × String) loadPairOk ⟨"a.pem", "a.key"⟩).2.1
      ("a.pem", "a.key") rfl,
   (claim10_tls_config_shape (String × String) loadFail ⟨"a.pem", "a.key"⟩).1
      "open: no such file" rfl⟩

/-- Claim C5: the maps returned by `Operators()` and `TLSListeners()` contain
no entry whose source name failed canonicalization — every key comes from an
entry whose name canonicalized successfully — and a canonicalization failure
only skips that entry: removing such an entry leaves the call's result
unchanged (for a TLS entry, provided its certificate material itself loads,
since that load happens regardless of the name). -/
theorem claim5_canonicalization_skip :
    (∀ (β : Type) (cf : String → Except String String)
       (dp : String → Except String β) (conf : Config) (m : List (String × β)),
       Config.Operators cf dp conf = some m →
       ∀ kv ∈ m, ∃ e ∈ conf.operator, cf e.1 = .ok kv.1) ∧
    (∀ (Cert : Type) (cf : String → Except String String)
       (load : String → String → Except String Cert) (conf : Config)
       (m : List (String × TLSContext Cert)),
       Config.TLSListeners cf load conf = some m →
       ∀ kv ∈ m, ∃ e ∈ conf.server.tlsListeners, cf e.1 = .ok kv.1) ∧
    (∀ (β : Type) (cf : String → Except String String)
       (dp : String → Except String β) (name : String) (pconf : PassConfig)
       (err : String) (pre post : List (String × PassConfig)),
       cf name = .error err →
       operatorsLoop cf dp [] (pre ++ (name, pconf) :: post) =
         operatorsLoop cf dp [] (pre ++ post)) ∧
    (∀ (Cert : Type) (cf : String → Except String String)
       (load : String → String → Except String Cert) (s : String)
       (tc : TLSListenConfig) (ctx : TLSContext Cert) (err : String)
       (pre post : List (String × TLSListenConfig)),
       cf s = .error err → TLSListenConfig.Config load tc = .ok ctx →
       tlsListenersLoop cf load [] (pre ++ (s, tc) :: post) =
         tlsListenersLoop cf load [] (pre ++ post)) := by
  refine ⟨?_, ?_, ?_, ?_⟩
  · intro β cf dp conf m h kv hkv
    rcases operatorsLoop_keys cf dp conf.operator [] m h kv hkv with habs | hgood
    · exact absurd habs (by simp)
    · exact hgood
  · intro Cert cf load conf m h kv hkv
    rcases tlsListenersLoop_keys cf load conf.server.tlsListeners [] m h kv hkv with
      habs | hgood
    · exact absurd habs (by simp)
    · exact hgood
  · intro β cf dp name pconf err pre post h
    exact operatorsLoop_skip cf dp name pconf err h pre post []
  · intro Cert cf load s tc ctx err pre post h1 h2
    exact tlsListenersLoop_skip cf load s tc ctx err h1 h2 pre post []

/-- Witness for claim C5, at concrete inputs. -/
theorem claim5_witness :
    operatorsLoop cfErr dpNat [] [("oper", ⟨"pw"⟩)] =
      operatorsLoop cfErr dpNat [] [] ∧
    tlsListenersLoop cfErr loadPairOk [] [("listener", ⟨"c.pem", "k.pem"⟩)] =
      tlsListenersLoop cfErr loadPairOk [] [] :=
  ⟨claim5_canonicalization_skip.2.2.1 Nat cfErr dpNat "oper" ⟨"pw"⟩
      "could not casefold" [] [] rfl,
   claim5_canonicalization_skip.2.2.2 (String × String) cfErr loadPairOk "listener"
      ⟨"c.pem", "k.pem"⟩ ⟨[("c.pem", "k.pem")]⟩ "could not casefold" [] [] rfl rfl⟩

/-- Claim C6, counterexample.  The claim states that an entry whose name
fails canonicalization never has its underlying material loaded and so can
never trigger a construction failure; but `TLSListeners` constructs the TLS
context before canonicalizing, so an entry whose name fails canonicalization
and whose cert/key pair fails to load still aborts the whole call (`none`,
the `log.Fatal` model) instead of being skipped. -/
theorem claim6_counterexample :
    tlsListenersLoop cfErr loadFail [] [("badname", ⟨"c.pem", "k.pem"⟩)] =
      (none : Option (List (String × TLSContext (String × String)))) ∧
    cfErr "badname" = .error "could not casefold" ∧
    tlsListenersLoop cfErr loadFail [] [("badname", ⟨"c.pem", "k.pem"⟩)] ≠
      tlsListenersLoop cfErr loadFail []
        ([] : List (String × TLSListenConfig)) :=
  ⟨rfl, rfl, by decide⟩

/-- Claim C6 as amended: the operator resolver canonicalizes the name first
and decodes the secret only if canonicalization succeeds, so a failed name
only skips the entry; the TLS-listener resolver instead constructs the TLS
context before canonicalizing the name, so an entry whose name fails
canonicalization still loads its cert/key material, a failure of which is
fatal to the call; the canonicalization failure itself only skips the
insertion. -/
theorem claim6_resolver_order :
    (∀ (β : Type) (cf : String → Except String String)
       (dp : String → Except String β) (name : String) (pconf : PassConfig)
       (err : String) (rest : List (String × PassConfig))
       (acc : List (String × β)),
       cf name = .error err →
       operatorsLoop cf dp acc ((name, pconf) :: rest) =
         operatorsLoop cf dp acc rest) ∧
    (∀ (Cert : Type) (cf : String → Except String String)
       (load : String → String → Except String Cert) (s : String)
       (tc : TLSListenConfig) (err : String)
       (rest : List (String × TLSListenConfig))
       (acc : List (String × TLSContext Cert)),
       cf s = .error err →
       tlsListenersLoop cf load acc ((s, tc) :: rest) =
         (match TLSListenConfig.Config load tc with
          | .error _ => none
          | .ok _ => tlsListenersLoop cf load acc rest)) := by
  constructor
  · intro β cf dp name pconf err rest acc h
    simp only [operatorsLoop, h]
  · intro Cert cf load s tc err rest acc h
    simp only [tlsListenersLoop]
    cases hld : TLSListenConfig.Config load tc with
    | error e => simp [hld]
    | ok config => simp [hld, h]

/-- Witness for the amended claim C6, at concrete inputs. -/
theorem claim6_witness :
    operatorsLoop cfErr dpNat [] [("o", ⟨"pw"⟩)] = some [] ∧
    tlsListenersLoop cfErr loadFail []
        [("badname", (⟨"c.pem", "k.pem"⟩ : TLSListenConfig))] =
      (none : Option (List (String × TLSContext (String × String)))) := by
  constructor
  · rw [claim6_resolver_order.1 Nat cfErr dpNat "o" ⟨"pw"⟩ "could not casefold" [] []
      rfl]
    rfl
  · rw [claim6_resolver_order.2 (String × String) cfErr loadFail "badname"
      ⟨"c.pem", "k.pem"⟩ "could not casefold" [] [] rfl]
    rfl

/-- Claim C2: once the document is read and parsed, `LoadConfig` reports
exactly the earliest violated invariant in the fixed order (network name →
server name → hostname format → datastore path → listen addresses → limits),
and succeeds with the normalized config when no invariant is violated. -/
theorem claim2_check_order :
    ∀ (data : String) (unmarshal : String → Except String Config) (parsed : Config),
      unmarshal data = .ok parsed →
      LoadConfig (.ok data) unmarshal =
        match firstViolation (normalizePassword parsed) with
        | some msg => (none, some msg)
        | none => (some (normalizePassword parsed), none) := by
  intro data unmarshal parsed h
  rw [loadConfig_ok_eval data unmarshal parsed h]
  by_cases h1 : (normalizePassword parsed).network.name = ""
  · simp [firstViolation, orderedChecks, h1]
  · by_cases h2 : (normalizePassword parsed).server.name = ""
    · simp [firstViolation, orderedChecks, h1, h2]
    · by_cases h3 : IsHostname (normalizePassword parsed).server.name = true
      · by_cases h4 : (normalizePassword parsed).datastore.path = ""
        · simp [firstViolation, orderedChecks, h1, h2, h3, h4]
        · by_cases h5 : (normalizePassword parsed).server.listen.length = 0
          · have h5e : (normalizePassword parsed).server.listen = [] :=
              List.length_eq_zero.mp h5
            simp [firstViolation, orderedChecks, h1, h2, h3, h4, h5, h5e]
          · have h5e : ¬(normalizePassword parsed).server.listen = [] := by
              intro he
              apply h5
              rw [he]
              rfl
            by_cases h6 : limitsCheckFails (normalizePassword parsed).limits = true
            · simp [firstViolation, orderedChecks, h1, h2, h3, h4, h5, h5e, h6]
            · simp [firstViolation, orderedChecks, h1, h2, h3, h4, h5, h5e, h6]
      · simp [firstViolation, orderedChecks, h1, h2, h3]

/-- Witness for claim C2: a document violating every invariant at once is
reported with the earliest violation, the missing network name. -/
theorem claim2_witness :
    LoadConfig (.ok "") (fun _ => .ok cfgEmpty) = (none, some "Network name missing") := by
  rw [claim2_check_order "" (fun _ => .ok cfgEmpty) cfgEmpty rfl]
  rfl

/-- Claim C4: the limits invariant fails exactly when `NickLen < 1` or
`ChannelLen < 2` or `AwayLen < 1` or `TopicLen < 1`; `KickLen` is subject to
no bound check, so a document that loads successfully still loads for every
value of `KickLen`. -/
theorem claim4_limits_bounds :
    (∀ limits : LimitsConfig, limitsCheckFails limits = true ↔
       (limits.nickLen < 1 ∨ limits.channelLen < 2 ∨ limits.awayLen < 1 ∨
        limits.topicLen < 1)) ∧
    (∀ (c : Config) (k : Int) (data : String),
       (LoadConfig (.ok data) (fun _ => .ok c)).1.isSome = true →
       (LoadConfig (.ok data)
         (fun _ => .ok { c with
           limits := { c.limits with kickLen := k } })).1.isSome = true) := by
  constructor
  · intro limits
    unfold limitsCheckFails
    simp only [Bool.or_eq_true, decide_eq_true_eq]
    tauto
  · intro c k data h
    have hn : normalizePassword { c with limits := { c.limits with kickLen := k } } =
        { normalizePassword c with limits := { c.limits with kickLen := k } } := by
      unfold normalizePassword
      by_cases hp : c.server.password ≠ ""
      · simp [hp]
      · simp [hp]
    have hLk : limitsCheckFails { c.limits with kickLen := k } =
        limitsCheckFails c.limits := rfl
    have hlim : (normalizePassword c).limits = c.limits := by
      unfold normalizePassword
      split <;> rfl
    rw [loadConfig_ok_eval data (fun _ => .ok c) c rfl] at h
    rw [loadConfig_ok_eval data
      (fun _ => .ok { c with limits := { c.limits with kickLen := k } })
      { c with limits := { c.limits with kickLen := k } } rfl, hn]
    rw [hlim] at h
    by_cases h1 : (normalizePassword c).network.name = ""
    · rw [if_pos h1] at h
      simp at h
    · by_cases h2 : (normalizePassword c).server.name = ""
      · rw [if_neg h1, if_pos h2] at h
        simp at h
      · by_cases h3 : IsHostname (normalizePassword c).server.name = true
        · by_cases h4 : (normalizePassword c).datastore.path = ""
          · rw [if_neg h1, if_neg h2, if_neg (by simp [h3]), if_pos h4] at h
            simp at h
          · by_cases h5 : (normalizePassword c).server.listen.length = 0
            · rw [if_neg h1, if_neg h2, if_neg (by simp [h3]), if_neg h4,
                if_pos h5] at h
              simp at h
            · by_cases h6 : limitsCheckFails c.limits = true
              · rw [if_neg h1, if_neg h2, if_neg (by simp [h3]), if_neg h4,
                  if_neg h5, if_pos h6] at h
                simp at h
              · simp [h1, h2, h3, h4, h5, h6, hLk]
        · rw [if_neg h1, if_neg h2, if_pos (by simp [h3])] at h
          simp at h

/-- Witness for claim C4, at concrete inputs: the limits predicate at a
violating value, and a good document still loading with a negative
`KickLen`. -/
theorem claim4_witness :
    (limitsCheckFails ⟨0, 0, 0, 5, 0, 0⟩ = true ↔
       ((0 : Int) < 1 ∨ (0 : Int) < 2 ∨ (0 : Int) < 1 ∨ (0 : Int) < 1)) ∧
    (LoadConfig (.ok "")
      (fun _ => .ok { cfgGood with
        limits := { cfgGood.limits with kickLen := -5 } })).1.isSome = true :=
  ⟨claim4_limits_bounds.1 ⟨0, 0, 0, 5, 0, 0⟩,
   claim4_limits_bounds.2 cfgGood (-5) "" (by decide)⟩

/-- Claim C7: between parsing and the invariant checks `LoadConfig` performs
exactly one normalization step — a non-empty flat `Server.Password` is copied
into the nested `PassConfig.Password`, every other field keeping its parsed
value, and nothing at all changes when the flat field is empty; the config
returned on success is exactly the normalized parse result. -/
theorem claim7_normalization :
    ∀ c : Config,
      (c.server.password = "" → normalizePassword c = c) ∧
      ((normalizePassword c).network = c.network ∧
       (normalizePassword c).datastore = c.datastore ∧
       (normalizePassword c).registration = c.registration ∧
       (normalizePassword c).operator = c.operator ∧
       (normalizePassword c).limits = c.limits ∧
       (normalizePassword c).server.password = c.server.password ∧
       (normalizePassword c).server.name = c.server.name ∧
       (normalizePassword c).server.listen = c.server.listen ∧
       (normalizePassword c).server.wslisten = c.server.wslisten ∧
       (normalizePassword c).server.tlsListeners = c.server.tlsListeners ∧
       (normalizePassword c).server.checkIdent = c.server.checkIdent ∧
       (normalizePassword c).server.log = c.server.log ∧
       (normalizePassword c).server.motd = c.server.motd ∧
       (normalizePassword c).server.proxyAllowedFrom = c.server.proxyAllowedFrom) ∧
      (c.server.password ≠ "" →
        (normalizePassword c).server.passConfig.password = c.server.password) ∧
      (∀ (data : String) (unmarshal : String → Except String Config) (x : Config),
        unmarshal data = .ok c → (LoadConfig (.ok data) unmarshal).1 = some x →
        x = normalizePassword c) := by
  intro c
  refine ⟨?_, ?_, ?_, ?_⟩
  · intro hp
    simp [normalizePassword, hp]
  · unfold normalizePassword
    split <;> simp
  · intro hp
    simp [normalizePassword, hp]
  · intro data unmarshal x h1 h2
    rw [loadConfig_ok_eval data unmarshal c h1] at h2
    split_ifs at h2
    all_goals simp_all

/-- Witness for claim C7, at concrete inputs. -/
theorem claim7_witness :
    normalizePassword cfgEmpty = cfgEmpty ∧
    (normalizePassword cfgGood).server.passConfig.password = cfgGood.server.password ∧
    cfgGoodNorm = normalizePassword cfgGood :=
  ⟨(claim7_normalization cfgEmpty).1 rfl,
   (claim7_normalization cfgGood).2.2.1 (by decide),
   (claim7_normalization cfgGood).2.2.2 "" (fun _ => .ok cfgGood) cfgGoodNorm rfl
     (by decide)⟩

/-- Claim C8: whenever `LoadConfig` reports an error it yields no config
object, and a config is returned exactly when reading, parsing and all six
invariant checks succeed. -/
theorem claim8_error_no_config :
    ∀ (readFile : Except String String) (unmarshal : String → Except String Config),
      ((LoadConfig readFile unmarshal).2.isSome = true →
        (LoadConfig readFile unmarshal).1 = none) ∧
      ((LoadConfig readFile unmarshal).1.isSome = true ↔
        ∃ data parsed, readFile = Except.ok data ∧ unmarshal data = Except.ok parsed ∧
          (normalizePassword parsed).network.name ≠ "" ∧
          (normalizePassword parsed).server.name ≠ "" ∧
          IsHostname (normalizePassword parsed).server.name = true ∧
          (normalizePassword parsed).datastore.path ≠ "" ∧
          (normalizePassword parsed).server.listen.length ≠ 0 ∧
          limitsCheckFails (normalizePassword parsed).limits = false) := by
  intro readFile unmarshal
  cases readFile with
  | error e =>
    constructor
    · intro _
      rfl
    · simp [LoadConfig]
  | ok data =>
    cases hu : unmarshal data with
    | error e =>
      constructor
      · intro _
        simp [LoadConfig, hu]
      · simp [LoadConfig, hu]
    | ok parsed =>
      rw [loadConfig_ok_eval data unmarshal parsed hu]
      split_ifs with h1 h2 h3 h4 h5 h6
      · exact ⟨fun _ => rfl, by simp [hu, h1]⟩
      · exact ⟨fun _ => rfl, by simp [hu, h1, h2]⟩
      · refine ⟨fun _ => rfl, ?_⟩
        have h3e : IsHostname (normalizePassword parsed).server.name = false := by
          revert h3
          cases IsHostname (normalizePassword parsed).server.name <;> simp
        simp [hu, h1, h2, h3e]
      · exact ⟨fun _ => rfl, by simp [hu, h1, h2, h3, h4]⟩
      · refine ⟨fun _ => rfl, ?_⟩
        have h5e : (normalizePassword parsed).server.listen = [] :=
          List.length_eq_zero.mp h5
        simp [hu, h1, h2, h3, h4, h5e]
      · exact ⟨fun _ => rfl, by simp [hu, h1, h2, h3, h4, h5, h6]⟩
      · constructor
        · intro habs
          simp at habs
        · simp only [Option.isSome_some, true_iff]
          refine ⟨data, parsed, rfl, hu, h1, h2, ?_, h4, h5, ?_⟩
          · revert h3
            cases IsHostname (normalizePassword parsed).server.name <;> simp
          · revert h6
            cases limitsCheckFails (normalizePassword parsed).limits <;> simp

/-- Witness for claim C8: a fully valid document yields a config. -/
theorem claim8_witness :
    (LoadConfig (.ok "config.yaml") (fun _ => .ok cfgGood)).1.isSome = true :=
  (claim8_error_no_config (.ok "config.yaml") (fun _ => .ok cfgGood)).2.mpr
    ⟨"config.yaml", cfgGood, rfl, rfl, by decide, by decide, by decide, by decide,
      by decide, by decide⟩

end Ergo
